import Mathlib

/-!
Shallow embedding of the gdbx command framework (hexdump / iconv / xmllint
GDB commands): argument partitioning, encoding-alias derivation and registry,
the dump-command dispatcher with its transient artifact, and the iconv
encoding prober.  All string manipulation is modelled over `List Char`
(`String` in this toolchain is a structure holding `data : List Char`), so
every definition evaluates by kernel reduction.
-/

namespace Gdbx

/-- Module constant `HEXDUMP_PATH`. -/
def HEXDUMP_PATH : String := "/usr/bin/hexdump"

/-- Module constant `ICONV_PATH`. -/
def ICONV_PATH : String := "/usr/bin/iconv"

/-- Module constant `XMLLINT_PATH`. -/
def XMLLINT_PATH : String := "/usr/bin/xmllint"

/-- Python `str.find(pat)` over char lists: index of the first occurrence of
`pat` as a contiguous substring, `none` when absent. -/
def substrIdx (pat : List Char) : List Char → Option Nat
  | [] => if pat.isEmpty then some 0 else none
  | l@(_ :: rest) =>
    if pat.isPrefixOf l then some 0 else (substrIdx pat rest).map (· + 1)

/-- Python `str.rfind(pat)` over char lists: index of the last occurrence of
`pat` as a contiguous substring, `none` when absent. -/
def substrLastIdx (pat : List Char) : List Char → Option Nat
  | [] => if pat.isEmpty then some 0 else none
  | l@(_ :: rest) =>
    match substrLastIdx pat rest with
    | some j => some (j + 1)
    | none => if pat.isPrefixOf l then some 0 else none

/-- The whitespace set stripped by Python 2 `str.strip()` / split by
`str.split()`. -/
def isPySpace (c : Char) : Bool :=
  c = ' ' || c = '\t' || c = '\n' || c = '\r' || c = '\x0b' || c = '\x0c'

/-- Python `str.strip()` on a char list: drop leading and trailing
whitespace. -/
def stripList (l : List Char) : List Char :=
  ((l.dropWhile isPySpace).reverse.dropWhile isPySpace).reverse

/-- Python `str.strip()`. -/
def pyStrip (s : String) : String := ⟨stripList s.data⟩

/-- No whitespace at an optional edge character. -/
def noSpaceEdge : Option Char → Bool
  | none => true
  | some c => !isPySpace c

/-- A string with no leading and no trailing whitespace character. -/
def isTrimmed (s : String) : Bool :=
  noSpaceEdge s.data.head? && noSpaceEdge s.data.getLast?

/-- `HexdumpImpl.parse_argument`: split on the FIRST occurrence of the
marker `"##"`; both sides are stripped when the marker is present, and the
raw string is passed through with an empty tail when it is absent. -/
def hexParseArgument (args : String) : String × String :=
  match substrIdx ['#', '#'] args.data with
  | none => (args, "")
  | some idx =>
    (pyStrip ⟨args.data.take idx⟩, pyStrip ⟨args.data.drop (idx + 2)⟩)

/-- `XmllintImpl.partition`: identical to `HexdumpImpl.parse_argument`
except that Python `rfind` is used, so the split happens at the LAST
occurrence of `"##"`. -/
def xmllintPartition (args : String) : String × String :=
  match substrLastIdx ['#', '#'] args.data with
  | none => (args, "")
  | some idx =>
    (pyStrip ⟨args.data.take idx⟩, pyStrip ⟨args.data.drop (idx + 2)⟩)

/-- Character class `[a-z0-9_]` of the `IconvImpl` alias regular
expression. -/
def isAliasChar (c : Char) : Bool :=
  ('a' ≤ c && c ≤ 'z') || ('0' ≤ c && c ≤ '9') || c = '_'

/-- Whether the regular expression `([ ]*(#[a-z0-9_]+))+` matches at the
head of the given char list: optional spaces, then `'#'` followed by at
least one alias character. -/
def reEncodingMatchAt : List Char → Bool
  | ' ' :: rest => reEncodingMatchAt rest
  | '#' :: c :: _ => isAliasChar c
  | _ => false

/-- Python `re.search` start position for `([ ]*(#[a-z0-9_]+))+`: the
leftmost index at which the pattern matches. -/
def reSearchStart : List Char → Option Nat
  | [] => none
  | l@(_ :: rest) =>
    if reEncodingMatchAt l then some 0 else (reSearchStart rest).map (· + 1)

/-- `IconvImpl.partition`: cut the raw argument string at the start of the
first run of `#alias` tokens; neither side is stripped. -/
def iconvPartition (args : String) : String × String :=
  match reSearchStart args.data with
  | none => (args, "")
  | some idx => (⟨args.data.take idx⟩, ⟨args.data.drop idx⟩)

/-- Python 2 `str.lower()` (ASCII case fold). -/
def pyLowerChar (c : Char) : Char :=
  if 'A' ≤ c && c ≤ 'Z' then Char.ofNat (c.toNat + 32) else c

/-- Python `str.rstrip("/")`: drop trailing slash characters. -/
def rstripSlash (s : String) : String :=
  ⟨(s.data.reverse.dropWhile (· = '/')).reverse⟩

/-- One pass of Python `str.replace(old, "_")` with a single-character
pattern. -/
def replaceChar (old : Char) (l : List Char) : List Char :=
  l.map fun c => if c = old then '_' else c

/-- The loop body of `IconvEncodings.supported_encodings`: lower-case the
(already slash-stripped) canonical name, then replace each character of
`IconvEncodings.replaces = "./:-()"` in turn with `'_'`. -/
def aliasOf (enc : String) : String :=
  ⟨['.', '/', ':', '-', '(', ')'].foldl (fun acc r => replaceChar r acc)
    (enc.data.map pyLowerChar)⟩

/-- Alias derivation for one raw line of `iconv -l` output: strip trailing
slash designators, then lower-case and substitute punctuation. -/
def deriveAlias (enc : String) : String := aliasOf (rstripSlash enc)

/-- Membership in the fixed replacement set `"./:-()"`. -/
def isReplacedChar (c : Char) : Bool :=
  c = '.' || c = '/' || c = ':' || c = '-' || c = '(' || c = ')'

/-- Single-pass simultaneous substitution by a replaced character. -/
def substChar (d : Char) : Char := if isReplacedChar d then '_' else d

/-- The alias derivation as the specification words it: strip trailing
slashes, lower-case, and replace every occurrence of each character of the
fixed punctuation set with the underscore in a single simultaneous pass. -/
def specDeriveAlias (enc : String) : String :=
  ⟨(rstripSlash enc).data.map fun c => substChar (pyLowerChar c)⟩

/-- Split a char list at newline characters, keeping empty pieces
(Python `str.split("\n")`). -/
def splitLines (l : List Char) : List (List Char) :=
  l.foldr
    (fun c acc =>
      if c = '\n' then [] :: acc
      else
        match acc with
        | [] => [[c]]
        | w :: ws => (c :: w) :: ws)
    [[]]

/-- Split a char list at whitespace runs, keeping empty pieces; filtering
the empties afterwards yields Python `str.split()`. -/
def splitWsChars (l : List Char) : List (List Char) :=
  l.foldr
    (fun c acc =>
      if isPySpace c then [] :: acc
      else
        match acc with
        | [] => [[c]]
        | w :: ws => (c :: w) :: ws)
    [[]]

/-- Python `str.split()` (split on whitespace, dropping empty tokens). -/
def pySplitWhitespace (s : String) : List String :=
  ((splitWsChars s.data).filter (· ≠ [])).map fun w => (⟨w⟩ : String)

/-- The registry-building loop of `IconvEncodings.supported_encodings`:
one entry per line of `iconv -l` output, trailing slashes stripped from the
canonical name, alias derived from it.  Later entries overwrite earlier
ones on lookup, as Python dict assignment does. -/
def buildRegistry (outbuf : String) : List (String × String) :=
  (splitLines outbuf.data).map fun encl =>
    let e : String := rstripSlash ⟨encl⟩
    (aliasOf e, e)

/-- Python dict lookup over the insertion-ordered entry list: the LAST
binding of a key wins. -/
def dictLookup (entries : List (String × String)) (key : String) :
    Option String :=
  entries.foldl (fun acc kv => if kv.1 = key then some kv.2 else acc) none

/-- `IconvEncodings.supported_encodings` as a whole: the external `iconv -l`
call either yields its stdout or raises; on success the registry is built,
on failure the exception propagates (after an operator-visible report). -/
def supportedEncodings (conv : Except String String) :
    Except String (List (String × String)) :=
  match conv with
  | .ok outbuf => .ok (buildRegistry outbuf)
  | .error m => .error m

/-- `IconvEncodings.__init__`: build the class-level registry only when it
is still unset.  Result: the new cached state, the outcome handed to the
caller, and whether the external converter was queried. -/
def registryLoad (st : Option (List (String × String)))
    (conv : Except String String) :
    Option (List (String × String)) ×
      Except String (List (String × String)) × Bool :=
  match st with
  | some r => (some r, .ok r, false)
  | none =>
    match supportedEncodings conv with
    | .ok r => (some r, .ok r, true)
    | .error m => (none, .error m, true)

/-- A sequence of registry loads threaded through the cached state,
recording for each load whether the external converter was queried. -/
def loadSeq (st : Option (List (String × String))) :
    List (Except String String) →
      Option (List (String × String)) × List Bool
  | [] => (st, [])
  | c :: cs =>
    let r := registryLoad st c
    let rest := loadSeq r.1 cs
    (rest.1, r.2.2 :: rest.2)

/-- `IconvEncodings.name`: strip leading `'#'` markers from the alias, then
look it up in the registry. -/
def encName (reg : String → Option String) (a : String) :
    Option String :=
  reg ⟨a.data.dropWhile (· = '#')⟩

/-- Python `str.partition("\n")` first component: the first line. -/
def firstLine (s : String) : String := ⟨s.data.takeWhile (· ≠ '\n')⟩

/-- `IconvImpl.format_error`: keep only the first line of the stderr
diagnostic; if it contains `"iconv: "`, return the line from that marker on
(dropping the pathname before it), otherwise fall through returning
`none` (Python `None`). -/
def format_error (errbuf : String) : Option String :=
  match substrIdx "iconv: ".data (firstLine errbuf).data with
  | some idx => some ⟨(firstLine errbuf).data.drop idx⟩
  | none => none

/-- A built tool invocation: either a token list (run without a shell) or a
single composed string (run through the shell), mirroring the
`type(cmdline) != list` test in `GdbDumpParent.execute`. -/
inductive ToolInvocation where
  | direct (tokens : List String)
  | shellStr (cmd : String)
deriving DecidableEq

/-- The dispatcher's shell decision: `use_shell = (type(cmdline) != list)`. -/
def useShell : ToolInvocation → Bool
  | .direct _ => false
  | .shellStr _ => true

/-- `HexdumpImpl.commandline`: with an empty tail, the fixed direct-exec
token list with the canonical `-C` flag; otherwise a single space-joined
shell string. -/
def hexCommandline (filename args : String) : ToolInvocation :=
  if args = "" then .direct [HEXDUMP_PATH, "-C", filename]
  else .shellStr (HEXDUMP_PATH ++ " " ++ args ++ " " ++ filename)

/-- `XmllintImpl.commandline`: always a shell-composed string. -/
def xmllintCommandline (filename args : String) : ToolInvocation :=
  .shellStr (XMLLINT_PATH ++ " " ++ args ++ " " ++ filename)

/-- Observable events emitted by the adapter steps of one invocation. -/
inductive AEv where
  | snapReq (cmd : String)
  | populated
  | errPrinted (msg : String)
  | toolInvoked (c : ToolInvocation)
  | reported (out err : String)
  | errLine (line : Option String)
deriving DecidableEq

/-- Outcome of a Python call: normal return, a raised `RuntimeError`, or
any other raised exception. -/
inductive PyResult (α : Type) where
  | ok (a : α)
  | runtimeError (msg : String)
  | exn (msg : String)
deriving DecidableEq

/-- Events of a whole `GdbDumpParent.invoke` run, including the artifact
lifecycle of the `with tempfile.NamedTemporaryFile(...)` block. -/
inductive Ev where
  | acquired (path : String)
  | released (path : String)
  | step (e : AEv)
  | caughtPrinted (msg : String)
  | exnNote
  | onExecError
deriving DecidableEq

/-- The text of the GDB `dump` command built by `cmd_dump`. -/
def dumpCommand (format typ filename args : String) : String :=
  "dump " ++ format ++ " " ++ typ ++ " " ++ filename ++ " " ++ args

/-- `cmd_dump`: issue the `dump` command to the host; a host `RuntimeError`
is caught, its message printed, and NOT re-raised (the `raise` in the
handler is commented out in the source), so the result is normal either
way; the artifact is populated only on host success. -/
def cmd_dump (host : String → Except String Unit)
    (format typ filename args : String) : List AEv × PyResult Unit :=
  let cmd := dumpCommand format typ filename args
  match host cmd with
  | .ok _ => ([.snapReq cmd, .populated], .ok ())
  | .error e => ([.snapReq cmd, .errPrinted e], .ok ())

/-- `GdbDumpParent.execute` applied to an already built command line:
launch the subprocess, report captured stdout/stderr, return `True`; a
launch failure (`Popen` raising) propagates as an exception. -/
def runToolInvocation
    (runner : ToolInvocation → Except String (String × String))
    (cmdline : ToolInvocation) : List AEv × PyResult Bool :=
  match runner cmdline with
  | .ok (out, err) => ([.toolInvoked cmdline, .reported out err], .ok true)
  | .error m => ([], .exn m)

/-- The body of `GdbDumpParent.invoke` inside the `with` block: partition,
snapshot, execute, with `RuntimeError` caught and printed and any other
exception reported and re-raised. -/
def invokeBody (tmp args : String)
    (parse : String → List AEv × PyResult (String × String))
    (dump : String → String → List AEv × PyResult Unit)
    (exec : String → String → List AEv × PyResult Bool) :
    List Ev × PyResult Unit :=
  match parse args with
  | (evs, .ok pa) =>
    match dump tmp pa.1 with
    | (evs2, .ok _) =>
      match exec tmp pa.2 with
      | (evs3, .ok b) =>
        ((evs ++ evs2 ++ evs3).map .step ++
          (if b then [] else [.onExecError]), .ok ())
      | (evs3, .runtimeError m) =>
        ((evs ++ evs2 ++ evs3).map .step ++ [.caughtPrinted m], .ok ())
      | (evs3, .exn m) =>
        ((evs ++ evs2 ++ evs3).map .step ++ [.exnNote], .exn m)
    | (evs2, .runtimeError m) =>
      ((evs ++ evs2).map .step ++ [.caughtPrinted m], .ok ())
    | (evs2, .exn m) => ((evs ++ evs2).map .step ++ [.exnNote], .exn m)
  | (evs, .runtimeError m) => (evs.map .step ++ [.caughtPrinted m], .ok ())
  | (evs, .exn m) => (evs.map .step ++ [.exnNote], .exn m)

/-- `GdbDumpParent.invoke`: the `with tempfile.NamedTemporaryFile(...)`
block acquires the transient artifact before the body and releases it on
every exit path, normal or exceptional. -/
def invoke (tmp args : String)
    (parse : String → List AEv × PyResult (String × String))
    (dump : String → String → List AEv × PyResult Unit)
    (exec : String → String → List AEv × PyResult Bool) :
    List Ev × PyResult Unit :=
  let body := invokeBody tmp args parse dump exec
  (.acquired tmp :: body.1 ++ [.released tmp], body.2)

/-- Effect of one event on the process-wide live-set of artifact paths. -/
def liveStep (acc : List String) : Ev → List String
  | .acquired p => p :: acc
  | .released p => acc.erase p
  | _ => acc

/-- The live-set after a trace of events, starting from `init`. -/
def liveAfter (init : List String) (tr : List Ev) : List String :=
  tr.foldl liveStep init

/-- The `hexdump value`/`hexdump memory` command (`typ` selects the GDB
dump mode), assembled exactly as the concrete subclasses wire the pieces
together. -/
def hexdumpInvoke (typ : String) (host : String → Except String Unit)
    (runner : ToolInvocation → Except String (String × String))
    (tmp args : String) : List Ev × PyResult Unit :=
  invoke tmp args
    (fun a => ([], .ok (hexParseArgument a)))
    (fun fn da => cmd_dump host "binary" typ fn da)
    (fun fn ea => runToolInvocation runner (hexCommandline fn ea))

/-- `hexdump value`. -/
def hexdumpValueInvoke (host : String → Except String Unit)
    (runner : ToolInvocation → Except String (String × String))
    (tmp args : String) : List Ev × PyResult Unit :=
  hexdumpInvoke "value" host runner tmp args

/-- `hexdump memory`. -/
def hexdumpMemoryInvoke (host : String → Except String Unit)
    (runner : ToolInvocation → Except String (String × String))
    (tmp args : String) : List Ev × PyResult Unit :=
  hexdumpInvoke "memory" host runner tmp args

/-- The alias-resolution loop at the top of `IconvImpl.execute_iconv`:
unknown aliases are reported and skipped, resolved ones are collected in
order. -/
def resolveEncodings (reg : String → Option String)
    (tokens : List String) : List AEv × List String :=
  tokens.foldl
    (fun acc e =>
      match encName reg e with
      | some realname => (acc.1, acc.2 ++ [realname])
      | none =>
        (acc.1 ++
          [AEv.errPrinted ("unknown encoding alias " ++ e ++ ", ignored")],
         acc.2))
    ([], [])

/-- One iteration of the per-encoding loop of `execute_iconv`: invoke the
converter once, report its stdout, and append a formatted error line when
stderr is non-empty. -/
def iconvProbeOne (runner : List String → String × String)
    (target filename enc : String) : List AEv :=
  let cmdline := [ICONV_PATH, "-t", target, "-f", enc, filename]
  let r := runner cmdline
  [.toolInvoked (.direct cmdline), .reported r.1 r.2] ++
    (if r.2 ≠ "" then [.errLine (format_error r.2)] else [])

/-- `IconvImpl.execute_iconv`: resolve the requested aliases, then compute
the report column width as `max(map(len, encodings))` — which raises
`ValueError` when no alias resolved — and finally probe each resolved
encoding with one converter invocation, never aborting on a decode
failure (the converter is modelled as total: decode errors appear as
non-empty stderr, not as exceptions). -/
def execute_iconv (reg : String → Option String)
    (runner : List String → String × String)
    (target filename args : String) : List AEv × PyResult Bool :=
  let resolved := resolveEncodings reg (pySplitWhitespace args)
  match resolved.2 with
  | [] => (resolved.1, .exn "max() arg is an empty sequence")
  | encodings =>
    (resolved.1 ++
      (encodings.map (iconvProbeOne runner target filename)).flatten,
     .ok true)

/-! ## Supporting lemmas -/

lemma invokeBody_no_artifact (tmp args : String)
    (parse : String → List AEv × PyResult (String × String))
    (dump : String → String → List AEv × PyResult Unit)
    (exec : String → String → List AEv × PyResult Bool) (p : String) :
    Ev.acquired p ∉ (invokeBody tmp args parse dump exec).1 ∧
    Ev.released p ∉ (invokeBody tmp args parse dump exec).1 := by
  unfold invokeBody
  rcases h : parse args with ⟨evs, r⟩
  rcases r with pa | m | m
  · rcases h2 : dump tmp pa.1 with ⟨evs2, r2⟩
    rcases r2 with u | m | m
    · rcases h3 : exec tmp pa.2 with ⟨evs3, r3⟩
      rcases r3 with b | m | m
      · rcases b <;> simp [h2, h3]
      · simp [h2, h3]
      · simp [h2, h3]
    · simp [h2]
    · simp [h2]
  · simp
  · simp

lemma liveAfter_eq_of_no_artifact (tr : List Ev) :
    ∀ L : List String, (∀ p, Ev.acquired p ∉ tr ∧ Ev.released p ∉ tr) →
      liveAfter L tr = L := by
  induction tr with
  | nil => intro L _; rfl
  | cons e rest ih =>
    intro L h
    have hstep : liveStep L e = L := by
      cases e with
      | acquired p => exact absurd (List.mem_cons_self _ _) (h p).1
      | released p => exact absurd (List.mem_cons_self _ _) (h p).2
      | step a => rfl
      | caughtPrinted m => rfl
      | exnNote => rfl
      | onExecError => rfl
    have hrw : liveAfter L (e :: rest) = liveAfter (liveStep L e) rest := rfl
    rw [hrw, hstep]
    exact ih L fun p =>
      ⟨fun hm => (h p).1 (List.mem_cons_of_mem _ hm),
       fun hm => (h p).2 (List.mem_cons_of_mem _ hm)⟩

/-! ## C1 -/

/-- C1: for every invocation of the export dispatcher — any adapter
behaviours for partitioning, snapshot and tool execution, returning
normally, raising `RuntimeError`, or raising any other exception — the
trace contains exactly one artifact acquisition and exactly one artifact
release, and the process-wide live-set of artifact paths returns to its
pre-call value. -/
theorem invoke_artifact_balanced (tmp args : String)
    (parse : String → List AEv × PyResult (String × String))
    (dump : String → String → List AEv × PyResult Unit)
    (exec : String → String → List AEv × PyResult Bool) (L : List String) :
    (invoke tmp args parse dump exec).1.count (Ev.acquired tmp) = 1 ∧
    (invoke tmp args parse dump exec).1.count (Ev.released tmp) = 1 ∧
    liveAfter L (invoke tmp args parse dump exec).1 = L := by
  have hna := invokeBody_no_artifact tmp args parse dump exec
  have hzb1 : ((invokeBody tmp args parse dump exec).1).count (Ev.acquired tmp) = 0 :=
    List.count_eq_zero.mpr (hna tmp).1
  have hzb2 : ((invokeBody tmp args parse dump exec).1).count (Ev.released tmp) = 0 :=
    List.count_eq_zero.mpr (hna tmp).2
  have h1 : (invoke tmp args parse dump exec).1 =
      Ev.acquired tmp :: (invokeBody tmp args parse dump exec).1 ++
        [Ev.released tmp] := rfl
  refine ⟨?_, ?_, ?_⟩
  · rw [h1]
    simp [List.count_cons, List.count_append, hzb1]
  · rw [h1]
    simp [List.count_cons, List.count_append, hzb2]
  · rw [h1]
    have hstep1 : liveAfter L (Ev.acquired tmp ::
        (invokeBody tmp args parse dump exec).1 ++ [Ev.released tmp]) =
        liveAfter (tmp :: L)
          ((invokeBody tmp args parse dump exec).1 ++ [Ev.released tmp]) := rfl
    rw [hstep1]
    have hsplit : liveAfter (tmp :: L)
        ((invokeBody tmp args parse dump exec).1 ++ [Ev.released tmp]) =
        liveAfter (liveAfter (tmp :: L) (invokeBody tmp args parse dump exec).1)
          [Ev.released tmp] := List.foldl_append _ _ _ _
    rw [hsplit, liveAfter_eq_of_no_artifact _ _ hna]
    show (tmp :: L).erase tmp = L
    exact List.erase_cons_head _ _

/-- Witness for the C1 theorem at a concrete invocation. -/
theorem invoke_artifact_balanced_witness :
    liveAfter [] (invoke "/tmp/gdb-w1" "buffer"
      (fun a => ([], .ok (a, ""))) (fun _ _ => ([], .ok ()))
      (fun _ _ => ([], .ok true))).1 = [] :=
  (invoke_artifact_balanced "/tmp/gdb-w1" "buffer"
    (fun a => ([], .ok (a, ""))) (fun _ _ => ([], .ok ()))
    (fun _ _ => ([], .ok true)) []).2.2

lemma hexdumpInvoke_host_error (typ : String)
    (host : String → Except String Unit)
    (runner : ToolInvocation → Except String (String × String))
    (tmp args e out err : String)
    (hh : host (dumpCommand "binary" typ tmp (hexParseArgument args).1) =
      Except.error e)
    (hr : runner (hexCommandline tmp (hexParseArgument args).2) =
      Except.ok (out, err)) :
    hexdumpInvoke typ host runner tmp args =
      ([Ev.acquired tmp,
        Ev.step (AEv.snapReq
          (dumpCommand "binary" typ tmp (hexParseArgument args).1)),
        Ev.step (AEv.errPrinted e),
        Ev.step (AEv.toolInvoked (hexCommandline tmp (hexParseArgument args).2)),
        Ev.step (AEv.reported out err),
        Ev.released tmp], PyResult.ok ()) := by
  unfold hexdumpInvoke invoke invokeBody cmd_dump runToolInvocation
  simp [hh, hr]

/-! ## C2 -/

/-- C2 (counterexample): with a host snapshot service that rejects the
expression, the external tool IS invoked and a tool report IS produced, at
the concrete invocation `hexdump value zzz` — refuting the claim that the
invocation moves directly to release on a snapshot error. -/
theorem snapshot_error_tool_still_invoked :
    Ev.step (AEv.toolInvoked (ToolInvocation.direct
        [HEXDUMP_PATH, "-C", "/tmp/gdb-c2"])) ∈
      (hexdumpValueInvoke
        (fun _ => Except.error "No symbol zzz in current context.")
        (fun _ => Except.ok ("", "")) "/tmp/gdb-c2" "zzz").1 ∧
    Ev.step (AEv.reported "" "") ∈
      (hexdumpValueInvoke
        (fun _ => Except.error "No symbol zzz in current context.")
        (fun _ => Except.ok ("", "")) "/tmp/gdb-c2" "zzz").1 := by
  decide

/-- C2 (amended): when the host snapshot service reports an error, the
error message is surfaced, but the invocation does not move directly to
release: `cmd_dump` catches and swallows the host error, so the external
tool is still invoked over the unpopulated artifact and a tool report is
produced; the artifact is then released and the command completes
normally. -/
theorem snapshot_error_surfaced_then_tool_runs
    (host : String → Except String Unit)
    (runner : ToolInvocation → Except String (String × String))
    (tmp args e out err : String)
    (hh : host (dumpCommand "binary" "value" tmp (hexParseArgument args).1) =
      Except.error e)
    (hr : runner (hexCommandline tmp (hexParseArgument args).2) =
      Except.ok (out, err)) :
    hexdumpValueInvoke host runner tmp args =
      ([Ev.acquired tmp,
        Ev.step (AEv.snapReq
          (dumpCommand "binary" "value" tmp (hexParseArgument args).1)),
        Ev.step (AEv.errPrinted e),
        Ev.step (AEv.toolInvoked (hexCommandline tmp (hexParseArgument args).2)),
        Ev.step (AEv.reported out err),
        Ev.released tmp], PyResult.ok ()) :=
  hexdumpInvoke_host_error "value" host runner tmp args e out err hh hr

/-- Witness for the amended C2 theorem at a concrete invocation. -/
theorem snapshot_error_surfaced_then_tool_runs_witness :
    hexdumpValueInvoke (fun _ => Except.error "bad expr")
        (fun _ => Except.ok ("00000000", "")) "/tmp/gdb-w2" "foo" =
      ([Ev.acquired "/tmp/gdb-w2",
        Ev.step (AEv.snapReq "dump binary value /tmp/gdb-w2 foo"),
        Ev.step (AEv.errPrinted "bad expr"),
        Ev.step (AEv.toolInvoked (ToolInvocation.direct
          [HEXDUMP_PATH, "-C", "/tmp/gdb-w2"])),
        Ev.step (AEv.reported "00000000" ""),
        Ev.released "/tmp/gdb-w2"], PyResult.ok ()) := by
  have h := snapshot_error_surfaced_then_tool_runs
    (fun _ => Except.error "bad expr") (fun _ => Except.ok ("00000000", ""))
    "/tmp/gdb-w2" "foo" "bad expr" "00000000" "" rfl rfl
  rw [h]
  decide

/-! ## C3 -/

/-- C3 (counterexample): at the concrete invocation
`hexdump memory 0x1000` — a memory-range selector with a missing end
token — a snapshot request carrying the malformed selector IS issued to
the host, refuting the claim that the command is rejected as a usage error
before any snapshot request. -/
theorem missing_end_token_snapshot_requested :
    Ev.step (AEv.snapReq "dump binary memory /tmp/gdb-c3 0x1000") ∈
      (hexdumpMemoryInvoke
        (fun _ => Except.error "A syntax error in expression")
        (fun _ => Except.ok ("", "")) "/tmp/gdb-c3" "0x1000").1 := by
  decide

/-- C3 (amended): a memory-range selector with a missing end token is not
rejected by any usage check: the raw selector is forwarded to the host in
a snapshot request; the host rejects it, the artifact is never populated,
the command does not crash (the invocation completes normally, running the
tool over the empty artifact), and the artifact is released. -/
theorem missing_end_token_not_validated
    (host : String → Except String Unit)
    (runner : ToolInvocation → Except String (String × String))
    (tmp args e out err : String)
    (hnm : substrIdx ['#', '#'] args.data = none)
    (hh : host (dumpCommand "binary" "memory" tmp args) = Except.error e)
    (hr : runner (hexCommandline tmp "") = Except.ok (out, err)) :
    (hexdumpMemoryInvoke host runner tmp args).2 = PyResult.ok () ∧
    Ev.step (AEv.snapReq (dumpCommand "binary" "memory" tmp args)) ∈
      (hexdumpMemoryInvoke host runner tmp args).1 ∧
    Ev.step AEv.populated ∉ (hexdumpMemoryInvoke host runner tmp args).1 ∧
    Ev.released tmp ∈ (hexdumpMemoryInvoke host runner tmp args).1 := by
  have hp : hexParseArgument args = (args, "") := by
    unfold hexParseArgument
    rw [hnm]
  have h := hexdumpInvoke_host_error "memory" host runner tmp args e out err
    (by rw [hp]; exact hh) (by rw [hp]; exact hr)
  have hm : hexdumpMemoryInvoke host runner tmp args =
      hexdumpInvoke "memory" host runner tmp args := rfl
  rw [hm, h, hp]
  simp

/-- Witness for the amended C3 theorem at a concrete invocation. -/
theorem missing_end_token_not_validated_witness :
    (hexdumpMemoryInvoke (fun _ => Except.error "A syntax error in expression")
      (fun _ => Except.ok ("", "")) "/tmp/gdb-w3" "0x2000").2 =
      PyResult.ok () :=
  (missing_end_token_not_validated
    (fun _ => Except.error "A syntax error in expression")
    (fun _ => Except.ok ("", "")) "/tmp/gdb-w3" "0x2000"
    "A syntax error in expression" "" "" (by decide) rfl rfl).1

lemma substrIdx_spec (pat : List Char) :
    ∀ l i, substrIdx pat l = some i →
      pat <+: l.drop i ∧ ∀ j < i, ¬ pat <+: l.drop j := by
  intro l
  induction l with
  | nil =>
    intro i h
    unfold substrIdx at h
    by_cases hp : pat.isEmpty
    · simp [hp] at h
      subst h
      refine ⟨?_, by omega⟩
      simp [List.isEmpty_iff.mp hp]
    · simp [hp] at h
  | cons c rest ih =>
    intro i h
    unfold substrIdx at h
    by_cases hpre : pat.isPrefixOf (c :: rest)
    · simp [hpre] at h
      subst h
      exact ⟨List.isPrefixOf_iff_prefix.mp hpre, by omega⟩
    · simp [hpre] at h
      obtain ⟨i', hi', rfl⟩ := h
      obtain ⟨h1, h2⟩ := ih i' hi'
      refine ⟨by simpa using h1, ?_⟩
      intro j hj
      cases j with
      | zero =>
        intro hc
        exact hpre (List.isPrefixOf_iff_prefix.mpr (by simpa using hc))
      | succ j' =>
        rw [List.drop_succ_cons]
        exact h2 j' (by omega)

lemma substrIdx_none (pat : List Char) (hp : pat ≠ []) :
    ∀ l, substrIdx pat l = none → ∀ j, ¬ pat <+: l.drop j := by
  intro l
  induction l with
  | nil =>
    intro _ j hc
    rw [List.drop_nil] at hc
    exact hp (List.prefix_nil.mp hc)
  | cons c rest ih =>
    intro h j
    unfold substrIdx at h
    by_cases hpre : pat.isPrefixOf (c :: rest)
    · simp [hpre] at h
    · simp [hpre] at h
      cases j with
      | zero =>
        intro hc
        exact hpre (List.isPrefixOf_iff_prefix.mpr (by simpa using hc))
      | succ j' =>
        rw [List.drop_succ_cons]
        exact ih h j'

lemma substrIdx_eq_of_first (pat : List Char) (hp : pat ≠ [])
    (l : List Char) (i : Nat) (h1 : pat <+: l.drop i)
    (h2 : ∀ j < i, ¬ pat <+: l.drop j) : substrIdx pat l = some i := by
  cases hs : substrIdx pat l with
  | none => exact absurd h1 (substrIdx_none pat hp l hs i)
  | some k =>
    obtain ⟨hk1, hk2⟩ := substrIdx_spec pat l k hs
    rcases lt_trichotomy k i with hlt | heq | hgt
    · exact absurd hk1 (h2 k hlt)
    · rw [heq]
    · exact absurd h1 (hk2 i hgt)

lemma substrLastIdx_none (pat : List Char) (hp : pat ≠ []) :
    ∀ l, substrLastIdx pat l = none → ∀ j, ¬ pat <+: l.drop j := by
  intro l
  induction l with
  | nil =>
    intro _ j hc
    rw [List.drop_nil] at hc
    exact hp (List.prefix_nil.mp hc)
  | cons c rest ih =>
    intro h j
    unfold substrLastIdx at h
    cases hr : substrLastIdx pat rest with
    | some k => rw [hr] at h; simp at h
    | none =>
      rw [hr] at h
      by_cases hpre : pat.isPrefixOf (c :: rest)
      · simp [hpre] at h
      · cases j with
        | zero =>
          intro hc
          exact hpre (List.isPrefixOf_iff_prefix.mpr (by simpa using hc))
        | succ j' =>
          rw [List.drop_succ_cons]
          exact ih hr j'

lemma substrLastIdx_spec (pat : List Char) (hp : pat ≠ []) :
    ∀ l i, substrLastIdx pat l = some i →
      pat <+: l.drop i ∧ ∀ j, i < j → ¬ pat <+: l.drop j := by
  intro l
  induction l with
  | nil =>
    intro i h
    unfold substrLastIdx at h
    have : ¬ pat.isEmpty := by
      cases pat with
      | nil => exact absurd rfl hp
      | cons a as => simp
    simp [this] at h
  | cons c rest ih =>
    intro i h
    unfold substrLastIdx at h
    cases hr : substrLastIdx pat rest with
    | some k =>
      rw [hr] at h
      simp at h
      subst h
      obtain ⟨h1, h2⟩ := ih k hr
      refine ⟨by simpa using h1, ?_⟩
      intro j hj
      cases j with
      | zero => omega
      | succ j' =>
        rw [List.drop_succ_cons]
        exact h2 j' (by omega)
    | none =>
      rw [hr] at h
      by_cases hpre : pat.isPrefixOf (c :: rest)
      · simp [hpre] at h
        subst h
        refine ⟨List.isPrefixOf_iff_prefix.mp hpre, ?_⟩
        intro j hj
        cases j with
        | zero => omega
        | succ j' =>
          rw [List.drop_succ_cons]
          exact substrLastIdx_none pat hp rest hr j'
      · simp [hpre] at h

lemma substrLastIdx_eq_of_last (pat : List Char) (hp : pat ≠ [])
    (l : List Char) (i : Nat) (h1 : pat <+: l.drop i)
    (h2 : ∀ j, i < j → ¬ pat <+: l.drop j) : substrLastIdx pat l = some i := by
  cases hs : substrLastIdx pat l with
  | none => exact absurd h1 (substrLastIdx_none pat hp l hs i)
  | some k =>
    obtain ⟨hk1, hk2⟩ := substrLastIdx_spec pat hp l k hs
    rcases lt_trichotomy k i with hlt | heq | hgt
    · exact absurd h1 (hk2 i hlt)
    · rw [heq]
    · exact absurd hk1 (h2 k hgt)

/-! ## C4 -/

/-- C4 (counterexample): the document validator splits at the LAST
occurrence of the two-character marker, not the first: partitioning
"A ## B ## C" yields ("A ## B", "C"), not ("A", "B ## C") — refuting the
claim that both marker-splitting adapters partition at the first
occurrence. -/
theorem xmllint_splits_at_last_marker :
    xmllintPartition "A ## B ## C" = ("A ## B", "C") ∧
    xmllintPartition "A ## B ## C" ≠ ("A", "B ## C") := by
  decide

/-- C4 (amended): the raw byte dumper partitions at the FIRST occurrence
of the marker "##" while the document validator partitions at the LAST
occurrence; when the marker is absent the entire string is the selector
and the tail is empty in both adapters; partitioning "A ## B" yields
("A", "B") and partitioning "A" yields ("A", "") in both. -/
theorem marker_split_first_vs_last :
    (∀ s : String, (∀ j, ¬ ['#', '#'] <+: s.data.drop j) →
      hexParseArgument s = (s, "") ∧ xmllintPartition s = (s, "")) ∧
    (∀ (s : String) (i : Nat), ['#', '#'] <+: s.data.drop i →
      (∀ j < i, ¬ ['#', '#'] <+: s.data.drop j) →
      hexParseArgument s =
        (pyStrip ⟨s.data.take i⟩, pyStrip ⟨s.data.drop (i + 2)⟩)) ∧
    (∀ (s : String) (i : Nat), ['#', '#'] <+: s.data.drop i →
      (∀ j, i < j → ¬ ['#', '#'] <+: s.data.drop j) →
      xmllintPartition s =
        (pyStrip ⟨s.data.take i⟩, pyStrip ⟨s.data.drop (i + 2)⟩)) ∧
    hexParseArgument "A ## B" = ("A", "B") ∧
    xmllintPartition "A ## B" = ("A", "B") ∧
    hexParseArgument "A" = ("A", "") ∧
    xmllintPartition "A" = ("A", "") ∧
    hexParseArgument "A ## B ## C" = ("A", "B ## C") ∧
    xmllintPartition "A ## B ## C" = ("A ## B", "C") := by
  refine ⟨?_, ?_, ?_, by decide, by decide, by decide, by decide,
    by decide, by decide⟩
  · intro s hno
    have h1 : substrIdx ['#', '#'] s.data = none := by
      cases hs : substrIdx ['#', '#'] s.data with
      | none => rfl
      | some k =>
        exact absurd (substrIdx_spec _ s.data k hs).1 (hno k)
    have h2 : substrLastIdx ['#', '#'] s.data = none := by
      cases hs : substrLastIdx ['#', '#'] s.data with
      | none => rfl
      | some k =>
        exact absurd (substrLastIdx_spec _ (by simp) s.data k hs).1 (hno k)
    constructor
    · unfold hexParseArgument
      rw [h1]
    · unfold xmllintPartition
      rw [h2]
  · intro s i hocc hfirst
    have h1 : substrIdx ['#', '#'] s.data = some i :=
      substrIdx_eq_of_first _ (by simp) s.data i hocc hfirst
    unfold hexParseArgument
    rw [h1]
  · intro s i hocc hlast
    have h2 : substrLastIdx ['#', '#'] s.data = some i :=
      substrLastIdx_eq_of_last _ (by simp) s.data i hocc hlast
    unfold xmllintPartition
    rw [h2]

/-- Witness for the amended C4 theorem at a concrete input. -/
theorem marker_split_first_vs_last_witness :
    hexParseArgument "x ## y" = ("x", "y") := by
  have h := marker_split_first_vs_last.2.1 "x ## y" 2 (by decide) (by decide)
  rw [h]
  decide

/-! ## C5 -/

/-- C5 (code bug, evaluated): when every requested alias fails to resolve
(here the single request `#bogus` against a registry without it), the
unresolved alias is reported as ignored but the invocation then aborts
with the `ValueError` raised by `max(map(len, encodings))` over the empty
resolved list — contradicting non-fatal skip-and-continue.  By contrast,
when the aliases resolve, every requested encoding is attempted with one
converter invocation each, and a decode failure of one encoding (non-empty
stderr on `#utf_8`) does not prevent the others from being attempted. -/
theorem execute_iconv_unresolved_crash :
    execute_iconv (fun _ => none) (fun _ => ("", ""))
        "UTF-8" "/tmp/gdb-c5" "#bogus" =
      ([AEv.errPrinted "unknown encoding alias #bogus, ignored"],
       PyResult.exn "max() arg is an empty sequence") ∧
    execute_iconv
        (fun a => if a = "euc_kr" then some "EUC-KR" else
          if a = "utf_8" then some "UTF-8" else none)
        (fun c => if c = [ICONV_PATH, "-t", "UTF-8", "-f", "EUC-KR",
            "/tmp/gdb-c5"] then ("decoded text", "")
          else ("", "/usr/bin/iconv: illegal input sequence at position 0\nx"))
        "UTF-8" "/tmp/gdb-c5" "#euc_kr #utf_8" =
      ([AEv.toolInvoked (ToolInvocation.direct
          [ICONV_PATH, "-t", "UTF-8", "-f", "EUC-KR", "/tmp/gdb-c5"]),
        AEv.reported "decoded text" "",
        AEv.toolInvoked (ToolInvocation.direct
          [ICONV_PATH, "-t", "UTF-8", "-f", "UTF-8", "/tmp/gdb-c5"]),
        AEv.reported ""
          "/usr/bin/iconv: illegal input sequence at position 0\nx",
        AEv.errLine (some "iconv: illegal input sequence at position 0")],
       PyResult.ok true) := by
  decide

/-! ## C6 -/

lemma aliasOf_eq_map_subst (l : List Char) :
    ['.', '/', ':', '-', '(', ')'].foldl (fun acc r => replaceChar r acc) l =
      l.map substChar := by
  simp only [List.foldl_cons, List.foldl_nil]
  unfold replaceChar
  simp only [List.map_map]
  apply List.map_congr_left
  intro d _
  by_cases h1 : d = '.'
  · subst h1; rfl
  by_cases h2 : d = '/'
  · subst h2; rfl
  by_cases h3 : d = ':'
  · subst h3; rfl
  by_cases h4 : d = '-'
  · subst h4; rfl
  by_cases h5 : d = '('
  · subst h5; rfl
  by_cases h6 : d = ')'
  · subst h6; rfl
  simp [h1, h2, h3, h4, h5, h6, substChar, isReplacedChar]

lemma deriveAlias_eq_spec (s : String) : deriveAlias s = specDeriveAlias s := by
  unfold deriveAlias aliasOf specDeriveAlias
  rw [aliasOf_eq_map_subst, List.map_map]
  rfl

/-- C6: alias derivation is a pure, deterministic function of the
canonical name — it agrees with the single-pass specification reading
(strip trailing slashes, lower-case, simultaneously replace every
occurrence of each character of "./:-()" with the underscore) — and
"ISO-8859-1" derives to "iso_8859_1" (and "ANSI_X3.110-1983//", with its
trailing slash designators, to "ansi_x3_110_1983"). -/
theorem alias_derivation_pure :
    (∀ s : String, deriveAlias s = deriveAlias s) ∧
    (∀ s : String, deriveAlias s = specDeriveAlias s) ∧
    deriveAlias "ISO-8859-1" = "iso_8859_1" ∧
    deriveAlias "ANSI_X3.110-1983//" = "ansi_x3_110_1983" := by
  refine ⟨fun s => rfl, deriveAlias_eq_spec, by decide, by decide⟩

/-- Witness for the C6 theorem at a concrete canonical name. -/
theorem alias_derivation_pure_witness :
    deriveAlias "EUC-KR" = specDeriveAlias "EUC-KR" :=
  alias_derivation_pure.2.1 "EUC-KR"

/-! ## C7 -/

lemma head?_dropWhile_aux (p : Char → Bool) :
    ∀ (l : List Char) (c : Char), (l.dropWhile p).head? = some c →
      p c = false := by
  intro l
  induction l with
  | nil => intro c h; simp [List.dropWhile] at h
  | cons a rest ih =>
    intro c h
    rw [List.dropWhile_cons] at h
    by_cases hp : p a
    · rw [if_pos hp] at h
      exact ih c h
    · rw [if_neg hp] at h
      simp at h
      rw [← h]
      simpa using hp

lemma getLast?_dropWhile_aux (p : Char → Bool) :
    ∀ l : List Char, l.dropWhile p ≠ [] →
      (l.dropWhile p).getLast? = l.getLast? := by
  intro l
  induction l with
  | nil => intro h; simp [List.dropWhile] at h
  | cons a rest ih =>
    intro h
    rw [List.dropWhile_cons] at h ⊢
    by_cases hp : p a
    · rw [if_pos hp] at h ⊢
      have hrest : rest ≠ [] := by
        intro he
        subst he
        simp [List.dropWhile] at h
      rw [ih h]
      cases rest with
      | nil => exact absurd rfl hrest
      | cons b r => rw [List.getLast?_cons_cons]
    · rw [if_neg hp]

lemma stripList_head (l : List Char) (c : Char)
    (h : (stripList l).head? = some c) : isPySpace c = false := by
  unfold stripList at h
  rw [List.head?_reverse] at h
  have hne : (l.dropWhile isPySpace).reverse.dropWhile isPySpace ≠ [] := by
    intro he
    rw [he] at h
    simp at h
  rw [getLast?_dropWhile_aux isPySpace _ hne, List.getLast?_reverse] at h
  exact head?_dropWhile_aux isPySpace l c h

lemma stripList_last (l : List Char) (c : Char)
    (h : (stripList l).getLast? = some c) : isPySpace c = false := by
  unfold stripList at h
  rw [List.getLast?_reverse] at h
  exact head?_dropWhile_aux isPySpace _ c h

lemma isTrimmed_pyStrip (s : String) : isTrimmed (pyStrip s) = true := by
  have hd : (pyStrip s).data = stripList s.data := rfl
  unfold isTrimmed
  rw [hd]
  have h1 : noSpaceEdge (stripList s.data).head? = true := by
    cases hh : (stripList s.data).head? with
    | none => rfl
    | some c => simp [noSpaceEdge, stripList_head s.data c hh]
  have h2 : noSpaceEdge (stripList s.data).getLast? = true := by
    cases hh : (stripList s.data).getLast? with
    | none => rfl
    | some c => simp [noSpaceEdge, stripList_last s.data c hh]
  rw [h1, h2]
  rfl

/-- C7 (counterexample): the pattern-splitting policy of the encoding
prober returns an untrimmed tool-argument tail — partitioning
"buffer #utf_8" yields ("buffer", " #utf_8"), whose tail carries leading
whitespace — refuting the claim that every partitioning policy returns a
pair of trimmed strings. -/
theorem iconv_partition_untrimmed :
    iconvPartition "buffer #utf_8" = ("buffer", " #utf_8") ∧
    isTrimmed (iconvPartition "buffer #utf_8").2 = false := by
  decide

/-- C7 (amended): marker-splitting returns trimmed components only when
the marker is present, and passes the whole raw string through untrimmed
when it is absent; pattern-splitting returns the raw untrimmed slices
whose concatenation is the input (so the tail keeps the whitespace
preceding the first alias token); an empty selector is passed through
rather than rejected. -/
theorem partition_trimming_amended :
    (∀ (s : String) (i : Nat), substrIdx ['#', '#'] s.data = some i →
      isTrimmed (hexParseArgument s).1 = true ∧
      isTrimmed (hexParseArgument s).2 = true) ∧
    (∀ s : String, substrIdx ['#', '#'] s.data = none →
      hexParseArgument s = (s, "")) ∧
    (∀ s : String, (iconvPartition s).1 ++ (iconvPartition s).2 = s) ∧
    iconvPartition "#utf_8" = ("", "#utf_8") := by
  refine ⟨?_, ?_, ?_, by decide⟩
  · intro s i h
    unfold hexParseArgument
    rw [h]
    exact ⟨isTrimmed_pyStrip _, isTrimmed_pyStrip _⟩
  · intro s h
    unfold hexParseArgument
    rw [h]
  · intro s
    obtain ⟨d⟩ := s
    unfold iconvPartition
    cases hr : reSearchStart (String.mk d).data with
    | none =>
      show (⟨d ++ []⟩ : String) = ⟨d⟩
      rw [List.append_nil]
    | some idx =>
      show (⟨d.take idx ++ d.drop idx⟩ : String) = ⟨d⟩
      rw [List.take_append_drop]

/-- Witness for the amended C7 theorem at a concrete input. -/
theorem partition_trimming_amended_witness :
    isTrimmed (hexParseArgument "a ## b").1 = true ∧
    isTrimmed (hexParseArgument "a ## b").2 = true :=
  partition_trimming_amended.1 "a ## b" 2 (by decide)

/-! ## C8 -/

/-- C8 (counterexample): for the non-empty stderr diagnostic
"boom: failed\nsecond line", whose first line does not contain the
"iconv: " marker, the formatter yields no summary at all (Python `None`) —
refuting the claim that it yields a single-line summary for every
non-empty stderr input. -/
theorem format_error_none_on_plain_diag :
    format_error "boom: failed\nsecond line" = none ∧
    "boom: failed\nsecond line" ≠ "" := by
  decide

/-- C8 (amended): when the first line of the stderr diagnostic contains
"iconv: ", the report line is that first line from the marker on (the
pathname before the marker stripped, the marker itself kept) and contains
no newline; when the first line lacks the marker the formatter returns
nothing.  Concretely, "/usr/bin/iconv: illegal input sequence at position
5" followed by further lines formats to "iconv: illegal input sequence at
position 5". -/
theorem format_error_amended :
    (∀ (errbuf : String) (i : Nat),
      substrIdx "iconv: ".data (firstLine errbuf).data = some i →
      format_error errbuf = some ⟨(firstLine errbuf).data.drop i⟩) ∧
    (∀ errbuf : String,
      substrIdx "iconv: ".data (firstLine errbuf).data = none →
      format_error errbuf = none) ∧
    (∀ errbuf s : String, format_error errbuf = some s → '\n' ∉ s.data) ∧
    format_error "/usr/bin/iconv: illegal input sequence at position 5\nmore" =
      some "iconv: illegal input sequence at position 5" := by
  refine ⟨?_, ?_, ?_, by decide⟩
  · intro errbuf i h
    unfold format_error
    rw [h]
  · intro errbuf h
    unfold format_error
    rw [h]
  · intro errbuf s h
    unfold format_error at h
    cases hs : substrIdx "iconv: ".data (firstLine errbuf).data with
    | none =>
      rw [hs] at h
      exact absurd h (by simp)
    | some i =>
      rw [hs] at h
      simp at h
      intro hc
      rw [← h] at hc
      have h1 : '\n' ∈ (firstLine errbuf).data := List.mem_of_mem_drop hc
      have h2 := List.mem_takeWhile_imp h1
      simp at h2

/-- Witness for the amended C8 theorem at a concrete diagnostic. -/
theorem format_error_amended_witness :
    format_error "iconv: boom\nrest" = some "iconv: boom" := by
  have h := format_error_amended.1 "iconv: boom\nrest" 0 (by decide)
  rw [h]
  decide

/-! ## C9 -/

/-- C9: the encoding registry is built at most once per process.  A load
with an empty cache queries the external converter and installs the parsed
registry (one name per line of the converter's self-reported list,
trailing slash designators stripped); a load with a populated cache
returns it unchanged without querying the converter, so any sequence of
loads after a successful one never queries the converter again; a load
whose converter invocation fails propagates the error and installs no
partial or cached registry; and whenever a load returns a registry, that
registry is exactly the cached state. -/
theorem registry_load_once_cached :
    (∀ st conv r, (registryLoad st conv).2.1 = Except.ok r →
      (registryLoad st conv).1 = some r) ∧
    (∀ (r : List (String × String)) (conv : Except String String),
      registryLoad (some r) conv = (some r, Except.ok r, false)) ∧
    (∀ out : String, registryLoad none (Except.ok out) =
      (some (buildRegistry out), Except.ok (buildRegistry out), true)) ∧
    (∀ m : String, registryLoad none (Except.error m) =
      (none, Except.error m, true)) ∧
    (∀ (r : List (String × String)) (convs : List (Except String String)),
      loadSeq (some r) convs = (some r, List.replicate convs.length false)) ∧
    buildRegistry "UTF-8\nANSI_X3.110-1983//" =
      [("utf_8", "UTF-8"), ("ansi_x3_110_1983", "ANSI_X3.110-1983")] := by
  refine ⟨?_, fun r conv => rfl, fun out => rfl, fun m => rfl, ?_, by decide⟩
  · intro st conv r h
    cases st with
    | some r' =>
      simp [registryLoad] at h ⊢
      exact h
    | none =>
      cases conv with
      | ok out =>
        simp [registryLoad, supportedEncodings] at h ⊢
        exact h
      | error m => simp [registryLoad, supportedEncodings] at h
  · intro r convs
    induction convs with
    | nil => rfl
    | cons c cs ih =>
      simp [loadSeq, registryLoad, ih, List.replicate_succ]

/-- Witness for the C9 theorem at a concrete load sequence. -/
theorem registry_load_once_cached_witness :
    (registryLoad none (Except.ok "UTF-8")).1 =
      some (buildRegistry "UTF-8") :=
  registry_load_once_cached.1 none (Except.ok "UTF-8")
    (buildRegistry "UTF-8") rfl

/-! ## C10 -/

/-- C10: in the raw byte-dump adapter the invocation style is decided
solely by whether the tool-argument tail is empty: an empty tail yields
the direct-exec token list [dump-tool, "-C", artifactPath], which the
dispatcher runs without a shell, while every non-empty tail yields the
single space-joined command string "dump-tool tail artifactPath", which
the dispatcher runs through the shell. -/
theorem hexdump_invocation_style :
    (∀ filename args : String, args = "" →
      hexCommandline filename args =
        ToolInvocation.direct [HEXDUMP_PATH, "-C", filename] ∧
      useShell (hexCommandline filename args) = false) ∧
    (∀ filename args : String, args ≠ "" →
      hexCommandline filename args =
        ToolInvocation.shellStr
          (HEXDUMP_PATH ++ " " ++ args ++ " " ++ filename) ∧
      useShell (hexCommandline filename args) = true) := by
  constructor
  · intro filename args h
    subst h
    exact ⟨rfl, rfl⟩
  · intro filename args h
    have hc : hexCommandline filename args =
        ToolInvocation.shellStr
          (HEXDUMP_PATH ++ " " ++ args ++ " " ++ filename) := by
      unfold hexCommandline
      rw [if_neg h]
    rw [hc]
    exact ⟨rfl, rfl⟩

/-- Witness for the C10 theorem at concrete tails. -/
theorem hexdump_invocation_style_witness :
    hexCommandline "/tmp/gdb-w10" "" =
      ToolInvocation.direct [HEXDUMP_PATH, "-C", "/tmp/gdb-w10"] ∧
    useShell (hexCommandline "/tmp/gdb-w10" "-b") = true :=
  ⟨(hexdump_invocation_style.1 "/tmp/gdb-w10" "" rfl).1,
   (hexdump_invocation_style.2 "/tmp/gdb-w10" "-b" (by decide)).2⟩

end Gdbx
